import Mathlib

/-!
# Verification of the Function Analyzer's analysis engine

Shallow embedding of `src/function_analyzer.py`, a single-pass streamlit
script that parses an algebraic expression, selects a 1-variable or a
2-variable analysis branch from the free variables among x and y, and runs
a fixed sequence of analysis steps (continuity, differentiability,
derivative display, sampling for plots, limits at infinity, extrema /
critical-point classification), each `st.*` rendering call modelled as one
emitted `UIEvent`.

The script calls into sympy and numpy, which are external libraries, not
code of this repository.  Calls into sympy (sympify, continuous_domain,
diff, solve, limit, subs/evalf) are modelled by a `CAS` record of
possibly-failing oracles; `modelCAS` implements them for the class of
rational functions with rational coefficients, which covers every concrete
expression the claims name.  Failure (`none`) models the library raising.
Numeric evaluation under numpy's float semantics is modelled exactly over
ℚ extended with infinities and nan (`NumVal`); float rounding is not
modelled, which is irrelevant to the finiteness questions the claims ask.
-/

namespace FA

/-- A numpy floating-point sample value: a finite rational, plus the three
non-finite IEEE values +inf, -inf and nan.  Models the float64 results of
`sp.lambdify(..., modules="numpy")` evaluation, with exact rational
arithmetic in place of rounding. -/
inductive NumVal where
  | fin (q : ℚ)
  | pinf
  | ninf
  | nan
  deriving DecidableEq, Inhabited

/-- `np.isfinite` on a sample value. -/
def isfinite : NumVal → Bool
  | .fin _ => true
  | _ => false

/-- IEEE addition as numpy performs it. -/
def numAdd : NumVal → NumVal → NumVal
  | .nan, _ => .nan
  | _, .nan => .nan
  | .fin a, .fin b => .fin (a + b)
  | .pinf, .ninf => .nan
  | .ninf, .pinf => .nan
  | .pinf, _ => .pinf
  | _, .pinf => .pinf
  | .ninf, _ => .ninf
  | _, .ninf => .ninf

/-- IEEE negation. -/
def numNeg : NumVal → NumVal
  | .fin a => .fin (-a)
  | .pinf => .ninf
  | .ninf => .pinf
  | .nan => .nan

/-- IEEE multiplication as numpy performs it: `0 * inf = nan`. -/
def numMul : NumVal → NumVal → NumVal
  | .nan, _ => .nan
  | _, .nan => .nan
  | .fin a, .fin b => .fin (a * b)
  | .fin a, .pinf => if a > 0 then .pinf else if a < 0 then .ninf else .nan
  | .fin a, .ninf => if a > 0 then .ninf else if a < 0 then .pinf else .nan
  | .pinf, .fin b => if b > 0 then .pinf else if b < 0 then .ninf else .nan
  | .ninf, .fin b => if b > 0 then .ninf else if b < 0 then .pinf else .nan
  | .pinf, .pinf => .pinf
  | .pinf, .ninf => .ninf
  | .ninf, .pinf => .ninf
  | .ninf, .ninf => .pinf

/-- IEEE division as numpy performs it: a nonzero finite numerator over zero
gives a signed infinity (with a runtime warning, not an exception), `0/0`
and `inf/inf` give nan, finite over infinite gives `0`. -/
def numDiv : NumVal → NumVal → NumVal
  | .nan, _ => .nan
  | _, .nan => .nan
  | .fin a, .fin b =>
      if b = 0 then (if a > 0 then .pinf else if a < 0 then .ninf else .nan)
      else .fin (a / b)
  | .fin _, .pinf => .fin 0
  | .fin _, .ninf => .fin 0
  | .pinf, .fin b => if b < 0 then .ninf else .pinf
  | .ninf, .fin b => if b < 0 then .pinf else .ninf
  | _, .pinf => .nan
  | _, .ninf => .nan

/-- IEEE natural power: numpy evaluates `v ** 0` to `1.0` for every `v`,
nan included. -/
def numPow : NumVal → Nat → NumVal
  | _, 0 => .fin 1
  | .fin a, n + 1 => .fin (a ^ (n + 1))
  | .pinf, _ + 1 => .pinf
  | .ninf, n + 1 => if (n + 1) % 2 = 0 then .pinf else .ninf
  | .nan, _ + 1 => .nan

/-- The symbolic expression tree `sp.sympify` builds: rational constants,
named symbols, sums, products, natural powers and quotients.  Subtraction
and unary minus are represented, as sympy represents them, as
multiplication by the constant -1. -/
inductive Expr where
  | const (c : ℚ)
  | var (s : String)
  | add (a b : Expr)
  | mul (a b : Expr)
  | powE (a : Expr) (n : Nat)
  | divE (a b : Expr)
  deriving DecidableEq, Inhabited

/-- Whether symbol `v` occurs free in `e`: models `v in expr.free_symbols`.
(sympy's automatic simplification at construction, which can cancel a
symbol, is not modelled; none of the claims' inputs trigger it.) -/
def hasVar : Expr → String → Bool
  | .const _, _ => false
  | .var s, v => s = v
  | .add a b, v => hasVar a v || hasVar b v
  | .mul a b, v => hasVar a v || hasVar b v
  | .powE a _, v => hasVar a v
  | .divE a b, v => hasVar a v || hasVar b v

/-- Numeric evaluation of the lambdified expression under an environment of
numpy sample values: models calling `sp.lambdify(vars, expr, modules="numpy")`
at one grid point. -/
def numEval (env : String → NumVal) : Expr → NumVal
  | .const c => .fin c
  | .var s => env s
  | .add a b => numAdd (numEval env a) (numEval env b)
  | .mul a b => numMul (numEval env a) (numEval env b)
  | .powE a n => numPow (numEval env a) n
  | .divE a b => numDiv (numEval env a) (numEval env b)

/-- 1D numeric evaluation `f_np(v)` with `x = v`.  A symbol other than x
evaluates to nan (the real lambdified function would not be called with it;
no claim exercises this). -/
def evalNum1 (e : Expr) (v : ℚ) : NumVal :=
  numEval (fun s => if s = "x" then .fin v else .nan) e

/-- 2D numeric evaluation `f_np(a, b)` with `x = a`, `y = b`. -/
def evalNum2 (e : Expr) (a b : ℚ) : NumVal :=
  numEval (fun s => if s = "x" then .fin a else if s = "y" then .fin b else .nan) e

/-! ## The expression string parser

Models `sp.sympify` (an external-library call) on the fragment of its input
language the claims exercise: integer literals, symbols, `+ - * / **` with
standard precedence, unary minus and parentheses.  Natural-number exponents
only; `sympify` accepts a larger language, so acceptance here implies
acceptance there on this fragment, and every malformed string of the claims
(for instance `"x +* 2"`) is rejected by both. -/

/-- A token of the expression language. -/
inductive Tok where
  | num (n : Nat)
  | id (s : String)
  | plus
  | minus
  | star
  | slash
  | dstar
  | lparen
  | rparen
  deriving DecidableEq, Inhabited

/-- Decimal value of a digit run. -/
def natOfDigits (ds : List Char) : Nat :=
  ds.foldl (fun a c => a * 10 + (c.toNat - 48)) 0

/-- Tokenizer worker, fuelled for termination. -/
def tokenizeAux : Nat → List Char → Except String (List Tok)
  | 0, _ => .error "tokenizer out of fuel"
  | _ + 1, [] => .ok []
  | fuel + 1, c :: rest =>
    if c = ' ' then tokenizeAux fuel rest
    else if c.isDigit then do
      let ts ← tokenizeAux fuel ((c :: rest).dropWhile Char.isDigit)
      pure (.num (natOfDigits ((c :: rest).takeWhile Char.isDigit)) :: ts)
    else if c.isAlpha then do
      let ts ← tokenizeAux fuel ((c :: rest).dropWhile Char.isAlpha)
      pure (.id (String.mk ((c :: rest).takeWhile Char.isAlpha)) :: ts)
    else if c = '*' then
      match rest with
      | '*' :: rest2 => do
          let ts ← tokenizeAux fuel rest2
          pure (.dstar :: ts)
      | _ => do
          let ts ← tokenizeAux fuel rest
          pure (.star :: ts)
    else if c = '+' then do
      let ts ← tokenizeAux fuel rest
      pure (.plus :: ts)
    else if c = '-' then do
      let ts ← tokenizeAux fuel rest
      pure (.minus :: ts)
    else if c = '/' then do
      let ts ← tokenizeAux fuel rest
      pure (.slash :: ts)
    else if c = '(' then do
      let ts ← tokenizeAux fuel rest
      pure (.lparen :: ts)
    else if c = ')' then do
      let ts ← tokenizeAux fuel rest
      pure (.rparen :: ts)
    else .error "unexpected character"

/-- Tokenize a raw input string. -/
def tokenize (s : String) : Except String (List Tok) :=
  tokenizeAux (s.length + 1) s.toList

mutual

/-- Additive level: a chain of `+`/`-` over terms.  Binary minus builds
multiplication by -1, as sympy's `Add`/`Mul` normal form does. -/
def parseE : Nat → List Tok → Except String (Expr × List Tok)
  | 0, _ => .error "parser out of fuel"
  | fuel + 1, ts => do
    let (t, ts1) ← parseT fuel ts
    parseEtail fuel t ts1

/-- Continuation of the additive chain. -/
def parseEtail : Nat → Expr → List Tok → Except String (Expr × List Tok)
  | 0, _, _ => .error "parser out of fuel"
  | fuel + 1, acc, .plus :: ts => do
    let (t, ts1) ← parseT fuel ts
    parseEtail fuel (.add acc t) ts1
  | fuel + 1, acc, .minus :: ts => do
    let (t, ts1) ← parseT fuel ts
    parseEtail fuel (.add acc (.mul (.const (-1)) t)) ts1
  | _ + 1, acc, ts => .ok (acc, ts)

/-- Multiplicative level: a chain of `*`/`/` over factors, left-associated. -/
def parseT : Nat → List Tok → Except String (Expr × List Tok)
  | 0, _ => .error "parser out of fuel"
  | fuel + 1, ts => do
    let (f, ts1) ← parseF fuel ts
    parseTtail fuel f ts1

/-- Continuation of the multiplicative chain. -/
def parseTtail : Nat → Expr → List Tok → Except String (Expr × List Tok)
  | 0, _, _ => .error "parser out of fuel"
  | fuel + 1, acc, .star :: ts => do
    let (f, ts1) ← parseF fuel ts
    parseTtail fuel (.mul acc f) ts1
  | fuel + 1, acc, .slash :: ts => do
    let (f, ts1) ← parseF fuel ts
    parseTtail fuel (.divE acc f) ts1
  | _ + 1, acc, ts => .ok (acc, ts)

/-- Unary minus, then the power level. -/
def parseF : Nat → List Tok → Except String (Expr × List Tok)
  | 0, _ => .error "parser out of fuel"
  | fuel + 1, .minus :: ts => do
    let (f, ts1) ← parseF fuel ts
    pure (.mul (.const (-1)) f, ts1)
  | fuel + 1, ts => parseP fuel ts

/-- An atom optionally raised to a natural-number literal power by `**`. -/
def parseP : Nat → List Tok → Except String (Expr × List Tok)
  | 0, _ => .error "parser out of fuel"
  | fuel + 1, ts => do
    let (a, ts1) ← parseAtom fuel ts
    match ts1 with
    | .dstar :: .num n :: ts2 => pure (.powE a n, ts2)
    | .dstar :: _ => .error "expected a numeric exponent after **"
    | _ => pure (a, ts1)

/-- A literal, a symbol, or a parenthesised expression. -/
def parseAtom : Nat → List Tok → Except String (Expr × List Tok)
  | 0, _ => .error "parser out of fuel"
  | _ + 1, .num n :: ts => .ok (.const n, ts)
  | _ + 1, .id s :: ts => .ok (.var s, ts)
  | fuel + 1, .lparen :: ts => do
    let (e, ts1) ← parseE fuel ts
    match ts1 with
    | .rparen :: ts2 => pure (e, ts2)
    | _ => .error "expected a closing parenthesis"
  | _ + 1, _ => .error "expected a number, a symbol or a parenthesis"

end

/-- Parse one raw input string into an `Expr`: models the `sp.sympify` call
at the top of the script.  `.error` models `sympify` raising, which the
script catches, reports and stops on. -/
def parseExpr (s : String) : Except String Expr := do
  let ts ← tokenize s
  let (e, rest) ← parseE (8 * ts.length + 8) ts
  match rest with
  | [] => pure e
  | _ => .error "unexpected trailing input"

/-! ## Rational-function computer algebra

The script's symbolic steps are sympy calls.  They are modelled here over
the class of rational functions in x and y with rational coefficients,
which contains every expression the claims name.  A polynomial is its
coefficient list (index = power of x); a bivariate polynomial is a list of
such lists (outer index = power of y). -/

/-- Univariate polynomial over ℚ as a coefficient list, lowest power first. -/
abbrev Poly : Type := List ℚ

/-- Drop trailing (highest-power) zero coefficients. -/
def polyTrim (p : Poly) : Poly :=
  List.reverse ((List.reverse p).dropWhile (fun c => c = 0))

/-- Evaluate at a point. -/
def polyEval (p : Poly) (v : ℚ) : ℚ :=
  p.foldr (fun c acc => c + v * acc) 0

/-- Coefficientwise sum. -/
def polyAdd : Poly → Poly → Poly
  | [], q => q
  | p, [] => p
  | a :: p, b :: q => (a + b) :: polyAdd p q

/-- Scalar multiple. -/
def polyScale (c : ℚ) (p : Poly) : Poly := p.map (fun a => c * a)

/-- Product of polynomials. -/
def polyMul : Poly → Poly → Poly
  | [], _ => []
  | a :: p, q => polyAdd (polyScale a q) ((0 : ℚ) :: polyMul p q)

/-- Natural power of a polynomial. -/
def polyPow (p : Poly) : Nat → Poly
  | 0 => [1]
  | n + 1 => polyMul p (polyPow p n)

/-- Largest k with k * k ≤ n, by bounded search (a structurally computable
integer square root). -/
def natSqrtE (n : Nat) : Nat :=
  ((List.range (n + 1)).filter (fun k => k * k ≤ n)).getLastD 0

/-- Square root of a nonnegative rational if it is rational, else `none`. -/
def ratSqrt (q : ℚ) : Option ℚ :=
  let n := natSqrtE q.num.natAbs
  let d := natSqrtE q.den
  if 0 ≤ q.num ∧ n * n = q.num.natAbs ∧ d * d = q.den then some ((n : ℚ) / d) else none

/-- Rational roots of a trimmed polynomial, or `none` when the model cannot
solve it (degree above two after factoring out powers of x, or an
irrational discriminant).  Models the root set `sp.solve` returns for the
polynomial equations the claims reach; `none` models the cases our rational
model does not cover. -/
def rootsAux : Poly → Option (List ℚ)
  | [] => some []
  | [_] => some []
  | [b, a] => some [-b / a]
  | [c, b, a] =>
      let disc := b * b - 4 * a * c
      if disc < 0 then some []
      else match ratSqrt disc with
        | some s => some [(-b + s) / (2 * a), (-b - s) / (2 * a)]
        | none => none
  | c :: p =>
      if c = 0 then do
        let rs ← rootsAux p
        pure (0 :: rs)
      else none

/-- Distinct real roots of a polynomial within the model's reach. -/
def rootsOf (p : Poly) : Option (List ℚ) := do
  let rs ← rootsAux (polyTrim p)
  pure rs.dedup

/-- Bivariate polynomial: coefficient list in y whose entries are
polynomials in x. -/
abbrev Poly2 : Type := List Poly

/-- Drop trailing zero coefficient polynomials (in y). -/
def p2trim (p : Poly2) : Poly2 :=
  List.reverse ((List.reverse p).dropWhile (fun c => polyTrim c = ([] : Poly)))

/-- Coefficientwise sum. -/
def p2add : Poly2 → Poly2 → Poly2
  | [], q => q
  | p, [] => p
  | a :: p, b :: q => polyAdd a b :: p2add p q

/-- Multiply every coefficient by an x-polynomial. -/
def p2scale (c : Poly) (p : Poly2) : Poly2 := p.map (fun a => polyMul c a)

/-- Product of bivariate polynomials. -/
def p2mul : Poly2 → Poly2 → Poly2
  | [], _ => []
  | a :: p, q => p2add (p2scale a q) (([] : Poly) :: p2mul p q)

/-- Natural power. -/
def p2pow (p : Poly2) : Nat → Poly2
  | 0 => [[1]]
  | n + 1 => p2mul p (p2pow p n)

/-- Whether the trimmed bivariate polynomial does not involve y. -/
def p2isXOnly (p : Poly2) : Bool := (p2trim p).length ≤ 1

/-- The x-polynomial of a y-free bivariate polynomial. -/
def p2toX (p : Poly2) : Poly :=
  match p2trim p with
  | [] => []
  | c :: _ => c

/-- Transpose the coefficient matrix, swapping the roles of x and y. -/
def p2transpose (p : Poly2) : Poly2 :=
  let rows := p.map polyTrim
  let w := (rows.map List.length).foldr max 0
  (List.range w).map (fun i => rows.map (fun r => r.getD i 0))

/-- Evaluate at a point (x, y). -/
def p2eval (p : Poly2) (a b : ℚ) : ℚ :=
  p.foldr (fun c acc => polyEval c a + b * acc) 0

/-- Translate an expression into a bivariate rational function
(numerator, denominator), failing on symbols outside x and y.  This is the
normal form behind the model's continuity-domain, solve and limit oracles. -/
def toRat2 : Expr → Option (Poly2 × Poly2)
  | .const c => some ([[c]], [[1]])
  | .var s =>
      if s = "x" then some ([[0, 1]], [[1]])
      else if s = "y" then some ([[0], [1]], [[1]]) else none
  | .add a b => do
      let (p1, q1) ← toRat2 a
      let (p2, q2) ← toRat2 b
      pure (p2add (p2mul p1 q2) (p2mul p2 q1), p2mul q1 q2)
  | .mul a b => do
      let (p1, q1) ← toRat2 a
      let (p2, q2) ← toRat2 b
      pure (p2mul p1 p2, p2mul q1 q2)
  | .powE a n => do
      let (p1, q1) ← toRat2 a
      pure (p2pow p1 n, p2pow q1 n)
  | .divE a b => do
      let (p1, q1) ← toRat2 a
      let (p2, q2) ← toRat2 b
      pure (p2mul p1 q2, p2mul q1 p2)

/-- Symbolic derivative with respect to symbol `v`: models `sp.diff`, which
applies exactly these linearity, product, power and quotient rules. -/
def derivExpr : Expr → String → Expr
  | .const _, _ => .const 0
  | .var s, v => .const (if s = v then 1 else 0)
  | .add a b, v => .add (derivExpr a v) (derivExpr b v)
  | .mul a b, v => .add (.mul (derivExpr a v) b) (.mul a (derivExpr b v))
  | .powE a n, v => .mul (.mul (.const n) (.powE a (n - 1))) (derivExpr a v)
  | .divE a b, v =>
      .divE (.add (.mul (derivExpr a v) b) (.mul (.const (-1)) (.mul a (derivExpr b v))))
        (.powE b 2)

/-- Exact evaluation of an expression under a partial rational environment:
models `expr.subs(...)` followed by a numeric comparison or `.evalf()`.
`none` models the sympy call raising (an unbound symbol left in the result,
or a pole), which the surrounding `try` blocks catch. -/
def evalQ (env : String → Option ℚ) : Expr → Option ℚ
  | .const c => some c
  | .var s => env s
  | .add a b => do
      let va ← evalQ env a
      let vb ← evalQ env b
      pure (va + vb)
  | .mul a b => do
      let va ← evalQ env a
      let vb ← evalQ env b
      pure (va * vb)
  | .powE a n => do
      let va ← evalQ env a
      pure (va ^ n)
  | .divE a b => do
      let va ← evalQ env a
      let vb ← evalQ env b
      if vb = 0 then none else pure (va / vb)

/-- The value of a symbolic limit at infinity: finite, +∞ or -∞.  Models
the values `sp.limit` returns on the expressions the model covers. -/
inductive LimVal where
  | finL (q : ℚ)
  | topL
  | botL
  deriving DecidableEq, Inhabited

/-- Whether the constant value of a bivariate polynomial, when it is one. -/
def p2constVal (p : Poly2) : Option ℚ :=
  match p2trim p with
  | [] => some 0
  | [c] =>
      match polyTrim c with
      | [] => some 0
      | [a] => some a
      | _ => none
  | _ => none

/-- Limit of the rational function p/q as x tends to +∞ (`pos = true`) or
-∞, read off from degrees and leading coefficients. -/
def limitRat (p q : Poly) (pos : Bool) : Option LimVal :=
  let pt := polyTrim p
  let qt := polyTrim q
  match qt with
  | [] => none
  | _ =>
    match pt with
    | [] => some (.finL 0)
    | _ =>
      let dp := pt.length - 1
      let dq := qt.length - 1
      let ratio := pt.getLastD 0 / qt.getLastD 0
      if dp < dq then some (.finL 0)
      else if dp = dq then some (.finL ratio)
      else
        let up := if pos then ratio > 0 else (ratio > 0) = ((dp - dq) % 2 = 0)
        some (if up then .topL else .botL)

/-- Excluded points of `sp.calculus.util.continuous_domain(e, v, S.Reals)`:
the real roots of the denominator of `e` as a rational function of `v`,
requiring the denominator free of the other symbol as `continuous_domain`'s
answer would otherwise not be a point set.  `none` models the library
raising or the expression leaving the model's rational fragment. -/
def contDomainModel (v : String) (e : Expr) : Option (List ℚ) := do
  let (_, q) ← toRat2 e
  let xOnly := p2isXOnly q
  let yOnly := p2isXOnly (p2transpose q)
  if v = "x" then
    if xOnly then rootsOf (p2toX q)
    else if yOnly then pure []
    else none
  else if v = "y" then
    if yOnly then rootsOf (p2toX (p2transpose q))
    else if xOnly then pure []
    else none
  else none

/-- Real roots `sp.solve(e, x)` returns for a univariate rational equation:
roots of the numerator that do not annihilate the denominator. -/
def solveModel (e : Expr) : Option (List ℚ) := do
  let (p, q) ← toRat2 e
  if p2isXOnly p ∧ p2isXOnly q then do
    let rs ← rootsOf (p2toX p)
    pure (rs.filter (fun r => decide (polyEval (p2toX q) r ≠ 0)))
  else none

/-- Limit of a univariate rational expression at ±∞: models `sp.limit`. -/
def limitModel (e : Expr) (pos : Bool) : Option LimVal := do
  let (p, q) ← toRat2 e
  if p2isXOnly p ∧ p2isXOnly q then limitRat (p2toX p) (p2toX q) pos else none

/-- Real solutions `sp.solve([gx, gy], (x, y))` returns for the gradient
system, within the model's reach: either one equation is a nonzero constant
(no solutions), or the system is separable (gx depends on x alone, gy on y
alone) and the solutions are the root pairs with nonvanishing denominators. -/
def solveSysModel (gx gy : Expr) : Option (List (ℚ × ℚ)) := do
  let (px, qx) ← toRat2 gx
  let (py, qy) ← toRat2 gy
  let cx := p2constVal px
  let cy := p2constVal py
  if (∃ a, cx = some a ∧ a ≠ 0) ∨ (∃ a, cy = some a ∧ a ≠ 0) then pure []
  else
    let keep := fun ab : ℚ × ℚ => decide (p2eval qx ab.1 ab.2 ≠ 0 ∧ p2eval qy ab.1 ab.2 ≠ 0)
    if p2isXOnly px ∧ p2isXOnly (p2transpose py) then do
      let rx ← rootsOf (p2toX px)
      let ry ← rootsOf (p2toX (p2transpose py))
      pure ((rx.flatMap (fun a => ry.map (fun b => (a, b)))).filter keep)
    else if p2isXOnly (p2transpose px) ∧ p2isXOnly py then do
      let ry ← rootsOf (p2toX (p2transpose px))
      let rx ← rootsOf (p2toX py)
      pure ((rx.flatMap (fun a => ry.map (fun b => (a, b)))).filter keep)
    else none

/-- Evaluation of `e.subs(x, r)` to a rational number, `none` when the
result is not a plain number (foreign symbol or pole), in which case the
script's numeric comparison on it raises. -/
def evalAModel (e : Expr) (r : ℚ) : Option ℚ :=
  evalQ (fun v => if v = "x" then some r else none) e

/-- Evaluation of `e.subs({x: a, y: b})` to a rational number. -/
def evalA2Model (e : Expr) (ab : ℚ × ℚ) : Option ℚ :=
  evalQ (fun v => if v = "x" then some ab.1 else if v = "y" then some ab.2 else none) e

/-- The symbolic-math capability the script calls into (sympy): each field
is one kind of library call the analysis steps make, and `none` is that
call raising.  The analysis pipeline is parametric in it, so theorems about
step isolation quantify over every possible pattern of library failure. -/
structure CAS where
  contDomain : String → Expr → Option (List ℚ)
  diffE : Expr → String → Option Expr
  solveE : Expr → Option (List ℚ)
  limitInf : Expr → Bool → Option LimVal
  evalA : Expr → ℚ → Option ℚ
  solveSys : Expr → Expr → Option (List (ℚ × ℚ))
  evalA2 : Expr → ℚ × ℚ → Option ℚ
  radialLimit : Expr → Option LimVal

/-- The concrete rational-function instantiation of the capability, faithful
to sympy on the claims' expressions.  The radial limit (a substitution of
r·cosθ, r·sinθ followed by `sp.limit`) leaves the rational fragment, so the
model reports it as a failing call; no claim depends on its value. -/
def modelCAS : CAS where
  contDomain := contDomainModel
  diffE := fun e v => some (derivExpr e v)
  solveE := solveModel
  limitInf := limitModel
  evalA := evalAModel
  solveSys := solveSysModel
  evalA2 := evalA2Model
  radialLimit := fun _ => none

/-! ## The analysis pipeline

The script is a straight line of streamlit calls; each data-bearing `st.*`
call is one emitted `UIEvent` (headers identify the branch entered; text
chrome carries no data and is not modelled).  A try/except block of the
source becomes a step function that degrades to a warning event on a failed
library call; a library failure outside any try aborts the script, which
the event stream records as a terminal `crash`. -/

/-- Classification tag of a 2D critical point. -/
inductive CPKind where
  | localMin
  | localMax
  | saddle
  | inconclusive
  deriving DecidableEq, Inhabited

/-- One rendered output of the script. -/
inductive UIEvent where
  | header1D
  | header2D
  | parseErr (msg : String)
  | unsupportedVars
  | continuityOK
  | discontinuousAt (excl : List ℚ)
  | diffOK
  | notDiffAt (excl : List ℚ)
  | diffUndet
  | derivShown (d : Expr)
  | derivFailed
  | plot1D (ys : List NumVal)
  | limitPos (l : LimVal)
  | limitNeg (l : LimVal)
  | limitsFailed
  | globalMin (pt val : ℚ)
  | noGlobalMin
  | globalMax (pt val : ℚ)
  | noGlobalMax
  | continuous2D
  | discontAlong (excl : List ℚ)
  | contUndet2D
  | diff2OK
  | diff2Maybe
  | partialX (d : Expr)
  | partialY (d : Expr)
  | diff2Undet
  | plot2D (zs : List (List NumVal))
  | radialShown (l : LimVal)
  | growsToInf
  | decaysToNegInf
  | radialUndet
  | critPt (pt : ℚ × ℚ) (val : ℚ) (kind : CPKind)
  | unclassifiable (pt : ℚ × ℚ)
  | noCritPts
  | critUndet
  | crash
  deriving DecidableEq, Inhabited

/-- `np.linspace a b n`: n evenly spaced points from a to b inclusive,
computed exactly over ℚ. -/
def linspaceQ (a b : ℚ) (n : Nat) : List ℚ :=
  (List.range n).map (fun k => a + ((b - a) * k) / ((n : ℚ) - 1))

/-- The 1D sample values (line 65 of the source): each of the 400 grid
evaluations is kept when finite and replaced by nan otherwise. -/
def sample1D (f : ℚ → NumVal) : List NumVal :=
  (linspaceQ (-10) 10 400).map (fun v => if isfinite (f v) then f v else .nan)

/-- The 100-point per-axis grid of the 2D branch. -/
def gridQ : List ℚ := linspaceQ (-10) 10 100

/-- The 2D surface values `Z = f_np(X, Y)` (line 156 of the source) under
numpy's `meshgrid` layout: row i, column j holds `f(grid j, grid i)`.  The
evaluations are recorded as they come; the source applies no finiteness
filter here. -/
def sample2D (f : ℚ → ℚ → NumVal) : List (List NumVal) :=
  gridQ.map (fun yv => gridQ.map (fun xv => f xv yv))

/-- The classification loop of the 1D extrema step (lines 92-101): for each
critical point, the second derivative and the function value are evaluated;
a positive second derivative files a minimum candidate, a negative one a
maximum candidate, zero or an evaluation failure files nothing. -/
def extremaStep (fv fdd : ℚ → Option ℚ) : List ℚ → List (ℚ × ℚ) × List (ℚ × ℚ)
  | [] => ([], [])
  | pt :: rest =>
    let mm := extremaStep fv fdd rest
    match fdd pt, fv pt with
    | some s, some v =>
        if s > 0 then ((pt, v) :: mm.1, mm.2)
        else if s < 0 then (mm.1, (pt, v) :: mm.2)
        else mm
    | _, _ => mm

/-- Python's `min(l, key=lambda t: t[1])`: the first element with the least
second component, `none` on the empty list. -/
def pyMinBy (l : List (ℚ × ℚ)) : Option (ℚ × ℚ) :=
  match l with
  | [] => none
  | a :: rest => some (rest.foldl (fun acc b => if b.2 < acc.2 then b else acc) a)

/-- Python's `max(l, key=lambda t: t[1])`: the first element with the
greatest second component. -/
def pyMaxBy (l : List (ℚ × ℚ)) : Option (ℚ × ℚ) :=
  match l with
  | [] => none
  | a :: rest => some (rest.foldl (fun acc b => if acc.2 < b.2 then b else acc) a)

/-- The reported global minimum (lines 103-107): the best minimum candidate,
or the "no global minimum" message when there is none. -/
def minRep (mins : List (ℚ × ℚ)) : UIEvent :=
  match pyMinBy mins with
  | some m => .globalMin m.1 m.2
  | none => .noGlobalMin

/-- The reported global maximum (lines 109-113). -/
def maxRep (maxs : List (ℚ × ℚ)) : UIEvent :=
  match pyMaxBy maxs with
  | some m => .globalMax m.1 m.2
  | none => .noGlobalMax

/-- The 1D continuity verdict (lines 36-39) for a computed excluded set. -/
def contEvt (excl : List ℚ) : UIEvent :=
  if excl.isEmpty then .continuityOK else .discontinuousAt excl

/-- The guarded 1D differentiability step (lines 43-53). -/
def diffEvts (cas : CAS) (e : Expr) : List UIEvent :=
  match cas.diffE e "x" with
  | none => [.diffUndet]
  | some d =>
    match cas.contDomain "x" d with
    | none => [.diffUndet]
    | some excl => if excl.isEmpty then [.diffOK] else [.notDiffAt excl]

/-- The guarded derivative display (lines 56-59): the name `derivative` is
bound exactly when `sp.diff` succeeded inside the previous step's try
block, so a diff failure surfaces here as the caught NameError. -/
def derivEvts (cas : CAS) (e : Expr) : List UIEvent :=
  match cas.diffE e "x" with
  | none => [.derivFailed]
  | some d => [.derivShown d]

/-- The guarded behaviour-at-infinity step (lines 77-83): both limits are
computed before either is written, and one failure suppresses both. -/
def limitEvts (cas : CAS) (e : Expr) : List UIEvent :=
  match cas.limitInf e true, cas.limitInf e false with
  | some p, some n => [.limitPos p, .limitNeg n]
  | _, _ => [.limitsFailed]

/-- The 1D extrema step (lines 86-113).  The derivative is recomputed here
outside any try (lines 87-88), and `sp.solve` is likewise unguarded
(line 89): a failure of any of the three aborts the script. -/
def extremaEvts (cas : CAS) (e : Expr) : List UIEvent :=
  match cas.diffE e "x" with
  | none => [.crash]
  | some fp =>
    match cas.diffE fp "x" with
    | none => [.crash]
    | some fdd =>
      match cas.solveE fp with
      | none => [.crash]
      | some roots =>
        let mm := extremaStep (cas.evalA e) (cas.evalA fdd) roots
        [minRep mm.1, maxRep mm.2]

/-- The 1D branch (lines 30-113).  The continuity computation (line 33) is
not inside any try/except: its failure ends the script run. -/
def run1D (cas : CAS) (e : Expr) : List UIEvent :=
  .header1D ::
    match cas.contDomain "x" e with
    | none => [.crash]
    | some excl =>
        contEvt excl ::
          (diffEvts cas e ++ derivEvts cas e ++ [.plot1D (sample1D (evalNum1 e))]
            ++ limitEvts cas e ++ extremaEvts cas e)

/-- The guarded 2D continuity step (lines 123-132): per-axis excluded sets,
their union reported. -/
def cont2Evts (cas : CAS) (e : Expr) : List UIEvent :=
  match cas.contDomain "x" e, cas.contDomain "y" e with
  | some ex, some ey =>
      if (ex ++ ey).isEmpty then [.continuous2D] else [.discontAlong (ex ++ ey)]
  | _, _ => [.contUndet2D]

/-- The guarded 2D differentiability step (lines 136-148). -/
def diff2Evts (cas : CAS) (e : Expr) : List UIEvent :=
  match cas.diffE e "x", cas.diffE e "y" with
  | some fx, some fy =>
    match cas.contDomain "x" fx, cas.contDomain "y" fy with
    | some dx, some dy =>
        (if dx.isEmpty && dy.isEmpty then [.diff2OK] else [.diff2Maybe])
          ++ [.partialX fx, .partialY fy]
    | _, _ => [.diff2Undet]
  | _, _ => [.diff2Undet]

/-- The guarded radial-limit step (lines 168-181). -/
def radialEvts (cas : CAS) (e : Expr) : List UIEvent :=
  match cas.radialLimit e with
  | some l =>
      .radialShown l ::
        (if l = .topL then [.growsToInf] else if l = .botL then [.decaysToNegInf] else [])
  | none => [.radialUndet]

/-- The per-point classification (lines 196-212): Hessian entries and the
function value are evaluated at the point; `D > 0` splits on the sign of
f_xx, `D < 0` is a saddle, `D = 0` is inconclusive, and any evaluation
failure makes that one point unclassifiable. -/
def classifyPt (cas : CAS) (e fxx fyy fxy : Expr) (pt : ℚ × ℚ) : UIEvent :=
  match cas.evalA2 fxx pt, cas.evalA2 fxy pt, cas.evalA2 fyy pt, cas.evalA2 e pt with
  | some a, some b, some d, some v =>
      let det := a * d - b * b
      if det > 0 then
        if a > 0 then .critPt pt v .localMin else .critPt pt v .localMax
      else if det < 0 then .critPt pt v .saddle
      else .critPt pt v .inconclusive
  | _, _, _, _ => .unclassifiable pt

/-- The guarded 2D critical-point step (lines 184-214): gradient, system
solve, then one classification event per solution. -/
def critEvts (cas : CAS) (e : Expr) : List UIEvent :=
  match cas.diffE e "x", cas.diffE e "y" with
  | some gx, some gy =>
    match cas.solveSys gx gy with
    | none => [.critUndet]
    | some [] => [.noCritPts]
    | some pts =>
      match cas.diffE gx "x", cas.diffE gy "y", cas.diffE gx "y" with
      | some fxx, some fyy, some fxy => pts.map (classifyPt cas e fxx fyy fxy)
      | _, _, _ => [.critUndet]
  | _, _ => [.critUndet]

/-- The 2D branch (lines 118-214): every step sits inside its own
try/except, so each failure degrades to that step's warning event. -/
def run2D (cas : CAS) (e : Expr) : List UIEvent :=
  .header2D ::
    (cont2Evts cas e ++ diff2Evts cas e ++ [.plot2D (sample2D (evalNum2 e))]
      ++ radialEvts cas e ++ critEvts cas e)

/-- The analysis branch selected from the free symbols (lines 20-30). -/
inductive Branch where
  | oneD
  | twoD
  | unsupported
  deriving DecidableEq, Inhabited

/-- `vars_used` (lines 21-25): of the free symbols, x then y when present. -/
def varsUsed (e : Expr) : List String :=
  (if hasVar e "x" then ["x"] else []) ++ (if hasVar e "y" then ["y"] else [])

/-- Branch selection (lines 30, 118, 216): one variable being x gives the
1D branch, two give the 2D branch, anything else the warning. -/
def selectBranch (e : Expr) : Branch :=
  if (varsUsed e).length = 1 ∧ "x" ∈ varsUsed e then .oneD
  else if (varsUsed e).length = 2 then .twoD
  else .unsupported

/-- Dispatch of a parsed expression to its branch. -/
def runExpr (cas : CAS) (e : Expr) : List UIEvent :=
  match selectBranch e with
  | .oneD => run1D cas e
  | .twoD => run2D cas e
  | .unsupported => [.unsupportedVars]

/-- One full script run on a raw input string (the whole of
function_analyzer.py): parse failure reports the error and stops
(lines 14-18), otherwise the selected branch runs. -/
def runProgram (cas : CAS) (s : String) : List UIEvent :=
  match parseExpr s with
  | .error m => [.parseErr m]
  | .ok e => runExpr cas e

/-! ## Named instances used by the claims -/

/-- The parse of `"x**2"`. -/
def exprX2 : Expr := .powE (.var "x") 2

/-- The parse of `"x**4"`. -/
def exprX4 : Expr := .powE (.var "x") 4

/-- The parse of `"x**2 - y**2"` (binary minus is multiplication by -1). -/
def exprXY : Expr := .add (.powE (.var "x") 2) (.mul (.const (-1)) (.powE (.var "y") 2))

/-- The parse of `"1/x"`. -/
def exprInvX : Expr := .divE (.const 1) (.var "x")

/-- The parse of `"y/(x+10)"`: its denominator vanishes at the grid point
x = -10 of the 2D sampling grid. -/
def exprYX10 : Expr := .divE (.var "y") (.add (.var "x") (.const 10))

/-- The parse of `"x + z"`: a stray symbol outside the alphabet. -/
def exprXZ : Expr := .add (.var "x") (.var "z")

/-- The capability with a failing continuity-domain call: models sympy's
`continuous_domain` raising (it raises NotImplementedError on expressions
outside its algorithms) while every other call behaves as usual. -/
def casContFail : CAS := { modelCAS with contDomain := fun _ _ => none }

/-! ## Claim theorems -/

/-- C7: for every successfully parsed expression the analysis branch is
selected by the free variables among x and y: neither present gives the
unsupported warning and no analysis, x alone runs the 1D branch, x and y
together run the 2D branch, and y alone gives the warning and stops. -/
theorem branch_selection (cas : CAS) (e : Expr) :
    (hasVar e "x" = false → hasVar e "y" = false →
      selectBranch e = Branch.unsupported ∧ runExpr cas e = [UIEvent.unsupportedVars]) ∧
    (hasVar e "x" = true → hasVar e "y" = false →
      selectBranch e = Branch.oneD ∧ (runExpr cas e).head? = some UIEvent.header1D) ∧
    (hasVar e "x" = true → hasVar e "y" = true →
      selectBranch e = Branch.twoD ∧ (runExpr cas e).head? = some UIEvent.header2D) ∧
    (hasVar e "x" = false → hasVar e "y" = true →
      selectBranch e = Branch.unsupported ∧ runExpr cas e = [UIEvent.unsupportedVars]) := by
  refine ⟨fun h1 h2 => ?_, fun h1 h2 => ?_, fun h1 h2 => ?_, fun h1 h2 => ?_⟩ <;>
    simp [selectBranch, varsUsed, runExpr, run1D, run2D, h1, h2]

/-- C8: every input string the parser rejects (the malformed `"x +* 2"`
among them) makes the program report the parse error and halt before any
analysis: the whole output is the one error report, no branch header and no
crash ever appears, and the run terminates (the embedding is a total
function). -/
theorem parse_failure_halts (cas : CAS) (s m : String)
    (h : parseExpr s = .error m) :
    runProgram cas s = [UIEvent.parseErr m] ∧
    UIEvent.crash ∉ runProgram cas s ∧
    UIEvent.header1D ∉ runProgram cas s ∧
    UIEvent.header2D ∉ runProgram cas s ∧
    (parseExpr "x +* 2").toOption = none := by
  have h1 : runProgram cas s = [UIEvent.parseErr m] := by simp [runProgram, h]
  refine ⟨h1, ?_, ?_, ?_, rfl⟩ <;> rw [h1] <;> simp

/-- Witness for C8 at the malformed input `"x +* 2"`. -/
theorem parse_failure_halts_witness :
    runProgram modelCAS "x +* 2" =
      [UIEvent.parseErr "expected a number, a symbol or a parenthesis"] ∧
    UIEvent.crash ∉ runProgram modelCAS "x +* 2" ∧
    UIEvent.header1D ∉ runProgram modelCAS "x +* 2" ∧
    UIEvent.header2D ∉ runProgram modelCAS "x +* 2" ∧
    (parseExpr "x +* 2").toOption = none :=
  parse_failure_halts modelCAS "x +* 2"
    "expected a number, a symbol or a parenthesis" (by rfl)

/-- C9: one analysis pass is a pure function of the input string — the
script keeps no state across runs — so analyzing the same expression string
twice produces identical structured results (stronger than the claim's
"identical up to extrema tie-breaks"). -/
theorem analysis_repeatable (cas : CAS) (s t : String) (h : s = t) :
    runProgram cas s = runProgram cas t := by rw [h]

/-- Witness for C9 at the input `"x**2"`. -/
theorem analysis_repeatable_witness :
    runProgram modelCAS "x**2" = runProgram modelCAS "x**2" :=
  analysis_repeatable modelCAS "x**2" "x**2" rfl

/-- Counterexample to C2: the input `"x + z"` contains the free symbol z
outside the alphabet, yet it parses and the 1D analysis branch is entered
(its header is the first output) instead of any rejection: no ParseError
and no unsupported-variables warning is emitted. -/
theorem extra_symbol_not_rejected_cex :
    parseExpr "x + z" = .ok exprXZ ∧
    selectBranch exprXZ = Branch.oneD ∧
    (runProgram modelCAS "x + z").head? = some UIEvent.header1D ∧
    UIEvent.unsupportedVars ∉ runProgram modelCAS "x + z" := by
  refine ⟨rfl, rfl, rfl, ?_⟩
  decide

/-- C2 as amended: an expression with symbols outside the alphabet is not
rejected; the branch is selected solely from which of x and y occur free
(so `"x + z"` enters the 1D branch), and the handling of any fixed input
string is identical on repeated runs. -/
theorem extra_symbol_branch_policy (e : Expr) (s : String) :
    selectBranch e =
      (if hasVar e "x" = true ∧ hasVar e "y" = false then Branch.oneD
       else if hasVar e "x" = true ∧ hasVar e "y" = true then Branch.twoD
       else Branch.unsupported) ∧
    runProgram modelCAS s = runProgram modelCAS s ∧
    (runProgram modelCAS "x + z").head? = some UIEvent.header1D := by
  refine ⟨?_, rfl, rfl⟩
  cases hx : hasVar e "x" <;> cases hy : hasVar e "y" <;>
    simp [selectBranch, varsUsed, hx, hy]

/-- C6: the 1D continuity verdict is Continuous exactly when the computed
maximal domain (the complement of the computed excluded set) is everything,
and otherwise the excluded set itself is reported; for 1/x the computed
excluded set is {0} and the discontinuity report for it appears in the run. -/
theorem continuity_verdict (e : Expr) (excl : List ℚ)
    (h : modelCAS.contDomain "x" e = some excl) :
    (run1D modelCAS e)[1]? = some (contEvt excl) ∧
    (contEvt excl = UIEvent.continuityOK ↔ {q : ℚ | q ∉ excl} = Set.univ) ∧
    (contEvt excl ≠ UIEvent.continuityOK → contEvt excl = UIEvent.discontinuousAt excl) ∧
    modelCAS.contDomain "x" exprInvX = some [0] ∧
    UIEvent.discontinuousAt [0] ∈ runProgram modelCAS "1/x" := by
  refine ⟨?_, ?_, ?_, by with_unfolding_all rfl, ?_⟩
  · simp [run1D, h]
  · cases excl with
    | nil => simp [contEvt, Set.eq_univ_iff_forall]
    | cons a t =>
      simp only [contEvt, List.isEmpty_cons, if_neg]
      constructor
      · intro hfalse
        exact absurd hfalse (by simp)
      · intro hset
        have ha : a ∈ {q : ℚ | q ∉ a :: t} := hset ▸ Set.mem_univ a
        exact absurd (List.mem_cons_self a t) ha
  · intro hne
    cases excl with
    | nil => exact absurd rfl hne
    | cons a t => simp [contEvt]
  · have hp : runProgram modelCAS "1/x" = run1D modelCAS exprInvX := rfl
    rw [hp]
    have h0 : modelCAS.contDomain "x" exprInvX = some [0] := by with_unfolding_all rfl
    simp [run1D, h0, contEvt]

/-- Witness for C6 at the input 1/x with excluded set {0}. -/
theorem continuity_verdict_witness :
    (run1D modelCAS exprInvX)[1]? = some (contEvt [0]) ∧
    (contEvt [0] = UIEvent.continuityOK ↔ {q : ℚ | q ∉ [(0 : ℚ)]} = Set.univ) ∧
    (contEvt [0] ≠ UIEvent.continuityOK → contEvt [0] = UIEvent.discontinuousAt [0]) ∧
    modelCAS.contDomain "x" exprInvX = some [0] ∧
    UIEvent.discontinuousAt [0] ∈ runProgram modelCAS "1/x" :=
  continuity_verdict exprInvX [0] (by with_unfolding_all rfl)

/-- Helper: the per-point classification never produces the crash marker. -/
theorem classifyPt_ne_crash (cas : CAS) (e fxx fyy fxy : Expr) (p : ℚ × ℚ) :
    classifyPt cas e fxx fyy fxy p ≠ UIEvent.crash := by
  unfold classifyPt
  split
  next a b d v h1 h2 h3 h4 =>
    by_cases hd : a * d - b * b > 0
    · rw [if_pos hd]
      by_cases ha : a > 0
      · rw [if_pos ha]
        simp
      · rw [if_neg ha]
        simp
    · rw [if_neg hd]
      by_cases hs : a * d - b * b < 0
      · rw [if_pos hs]
        simp
      · rw [if_neg hs]
        simp
  next => simp

/-- Helper: the guarded 2D continuity step never crashes. -/
theorem crash_not_cont2 (cas : CAS) (e : Expr) : UIEvent.crash ∉ cont2Evts cas e := by
  unfold cont2Evts
  split
  · split <;> simp
  · simp

/-- Helper: the guarded 2D differentiability step never crashes. -/
theorem crash_not_diff2 (cas : CAS) (e : Expr) : UIEvent.crash ∉ diff2Evts cas e := by
  unfold diff2Evts
  split
  · split
    · split <;> simp
    · simp
  · simp

/-- Helper: the guarded radial-limit step never crashes. -/
theorem crash_not_radial (cas : CAS) (e : Expr) : UIEvent.crash ∉ radialEvts cas e := by
  unfold radialEvts
  split
  · split
    · simp
    · split <;> simp
  · simp

/-- Helper: the guarded 2D critical-point step never crashes. -/
theorem crash_not_crit (cas : CAS) (e : Expr) : UIEvent.crash ∉ critEvts cas e := by
  unfold critEvts
  split
  · split
    · simp
    · simp
    · split
      · intro h
        rcases List.mem_map.mp h with ⟨p, _, hp⟩
        exact classifyPt_ne_crash _ _ _ _ _ _ hp
      · simp
  · simp

/-- Counterexample to C3: with the continuity-domain library call failing
(as sympy's `continuous_domain` can), the 1D run on the expression x is
just the branch header followed by the crash — the continuity step's
failure aborts every remaining step instead of degrading locally: no
derivative, plot, limit or extrema output appears. -/
theorem continuity_failure_aborts_cex :
    run1D casContFail (Expr.var "x") = [UIEvent.header1D, UIEvent.crash] ∧
    UIEvent.noGlobalMin ∉ run1D casContFail (Expr.var "x") ∧
    UIEvent.noGlobalMax ∉ run1D casContFail (Expr.var "x") ∧
    UIEvent.diffOK ∉ run1D casContFail (Expr.var "x") ∧
    runExpr casContFail (Expr.var "x") = run1D casContFail (Expr.var "x") := by
  refine ⟨rfl, ?_, ?_, ?_, rfl⟩ <;> decide

/-- C3 as amended: each guarded step (1D differentiability, derivative
display, limits; every 2D step) degrades locally — the 2D branch never
crashes, and a limit-step failure leaves the extrema output unchanged —
but the unguarded 1D calls are not isolated: a continuity-domain failure
aborts all remaining 1D steps. -/
theorem step_isolation_policy (cas : CAS) (e : Expr) (excl : List ℚ)
    (h : cas.contDomain "x" e = some excl) :
    run1D cas e = UIEvent.header1D :: contEvt excl ::
      (diffEvts cas e ++ derivEvts cas e ++ [UIEvent.plot1D (sample1D (evalNum1 e))]
        ++ limitEvts cas e ++ extremaEvts cas e) ∧
    (∀ cas2 : CAS, ∀ e2 : Expr, cas2.contDomain "x" e2 = none →
      run1D cas2 e2 = [UIEvent.header1D, UIEvent.crash]) ∧
    (∀ cas2 : CAS, ∀ e2 : Expr, UIEvent.crash ∉ run2D cas2 e2) ∧
    extremaEvts { cas with limitInf := fun _ _ => none } e = extremaEvts cas e ∧
    diffEvts { cas with limitInf := fun _ _ => none, solveE := fun _ => none } e =
      diffEvts cas e := by
  refine ⟨by simp [run1D, h], fun cas2 e2 h2 => by simp [run1D, h2], ?_, rfl, rfl⟩
  intro cas2 e2 hmem
  unfold run2D at hmem
  rcases List.mem_cons.mp hmem with h1 | h1
  · cases h1
  · simp only [List.mem_append] at h1
    rcases h1 with ((((h1 | h1) | h1) | h1) | h1)
    · exact crash_not_cont2 cas2 e2 h1
    · exact crash_not_diff2 cas2 e2 h1
    · simp at h1
    · exact crash_not_radial cas2 e2 h1
    · exact crash_not_crit cas2 e2 h1

/-- Witness for C3's amended statement at the model capability and the
expression x, whose computed excluded set is empty. -/
theorem step_isolation_policy_witness :
    run1D modelCAS (Expr.var "x") = UIEvent.header1D :: contEvt [] ::
      (diffEvts modelCAS (Expr.var "x") ++ derivEvts modelCAS (Expr.var "x")
        ++ [UIEvent.plot1D (sample1D (evalNum1 (Expr.var "x")))]
        ++ limitEvts modelCAS (Expr.var "x") ++ extremaEvts modelCAS (Expr.var "x")) ∧
    (∀ cas2 : CAS, ∀ e2 : Expr, cas2.contDomain "x" e2 = none →
      run1D cas2 e2 = [UIEvent.header1D, UIEvent.crash]) ∧
    (∀ cas2 : CAS, ∀ e2 : Expr, UIEvent.crash ∉ run2D cas2 e2) ∧
    extremaEvts { modelCAS with limitInf := fun _ _ => none } (Expr.var "x") =
      extremaEvts modelCAS (Expr.var "x") ∧
    diffEvts { modelCAS with limitInf := fun _ _ => none, solveE := fun _ => none }
        (Expr.var "x") =
      diffEvts modelCAS (Expr.var "x") :=
  step_isolation_policy modelCAS (Expr.var "x") [] (by rfl)

/-- Helper: a critical point with positive second derivative and a good
value evaluation is filed as a minimum candidate. -/
theorem extremaStep_files_min (fv fdd : ℚ → Option ℚ) (roots : List ℚ) (pt s v : ℚ)
    (hpt : pt ∈ roots) (hs : fdd pt = some s) (hv : fv pt = some v) (hpos : 0 < s) :
    (pt, v) ∈ (extremaStep fv fdd roots).1 := by
  induction hpt with
  | head rest =>
      simp only [extremaStep, hs, hv]
      rw [if_pos hpos]
      exact List.mem_cons_self _ _
  | tail b hmem ih =>
      simp only [extremaStep]
      cases hfb : fdd b with
      | none => exact ih
      | some sb =>
        cases hvb : fv b with
        | none => exact ih
        | some vb =>
          dsimp only
          by_cases h1 : sb > 0
          · rw [if_pos h1]
            exact List.Mem.tail _ ih
          · rw [if_neg h1]
            by_cases h2 : sb < 0
            · rw [if_pos h2]
              exact ih
            · rw [if_neg h2]
              exact ih

/-- Helper: a critical point with negative second derivative and a good
value evaluation is filed as a maximum candidate. -/
theorem extremaStep_files_max (fv fdd : ℚ → Option ℚ) (roots : List ℚ) (pt s v : ℚ)
    (hpt : pt ∈ roots) (hs : fdd pt = some s) (hv : fv pt = some v) (hneg : s < 0) :
    (pt, v) ∈ (extremaStep fv fdd roots).2 := by
  induction hpt with
  | head rest =>
      simp only [extremaStep, hs, hv]
      rw [if_neg (by linarith : ¬s > 0), if_pos hneg]
      exact List.mem_cons_self _ _
  | tail b hmem ih =>
      simp only [extremaStep]
      cases hfb : fdd b with
      | none => exact ih
      | some sb =>
        cases hvb : fv b with
        | none => exact ih
        | some vb =>
          dsimp only
          by_cases h1 : sb > 0
          · rw [if_pos h1]
            exact ih
          · rw [if_neg h1]
            by_cases h2 : sb < 0
            · rw [if_pos h2]
              exact List.Mem.tail _ ih
            · rw [if_neg h2]
              exact ih

/-- Helper: a critical point whose second derivative is zero, or whose
evaluations fail, is filed in neither candidate list. -/
theorem extremaStep_discards (fv fdd : ℚ → Option ℚ) (roots : List ℚ) (pt : ℚ)
    (hdeg : fdd pt = some 0 ∨ fdd pt = none ∨ fv pt = none) (w : ℚ) :
    (pt, w) ∉ (extremaStep fv fdd roots).1 ∧ (pt, w) ∉ (extremaStep fv fdd roots).2 := by
  induction roots with
  | nil => simp [extremaStep]
  | cons b rest ih =>
      simp only [extremaStep]
      cases hfb : fdd b with
      | none => exact ih
      | some sb =>
        cases hvb : fv b with
        | none => exact ih
        | some vb =>
          dsimp only
          by_cases hpb : pt = b
          · subst hpb
            rcases hdeg with h | h | h
            · rw [hfb] at h
              have h0 : sb = 0 := Option.some.inj h
              subst h0
              rw [if_neg (lt_irrefl 0), if_neg (lt_irrefl 0)]
              exact ih
            · rw [hfb] at h
              cases h
            · rw [hvb] at h
              cases h
          · constructor
            · intro hmem
              by_cases h1 : sb > 0
              · rw [if_pos h1] at hmem
                rcases List.mem_cons.mp hmem with he | he
                · exact hpb (congrArg Prod.fst he)
                · exact ih.1 he
              · rw [if_neg h1] at hmem
                by_cases h2 : sb < 0
                · rw [if_pos h2] at hmem
                  exact ih.1 hmem
                · rw [if_neg h2] at hmem
                  exact ih.1 hmem
            · intro hmem
              by_cases h1 : sb > 0
              · rw [if_pos h1] at hmem
                exact ih.2 hmem
              · rw [if_neg h1] at hmem
                by_cases h2 : sb < 0
                · rw [if_pos h2] at hmem
                  rcases List.mem_cons.mp hmem with he | he
                  · exact hpb (congrArg Prod.fst he)
                  · exact ih.2 he
                · rw [if_neg h2] at hmem
                  exact ih.2 hmem
/-- Helper: the running minimum of Python's `min(..., key)` fold. -/
theorem foldlMin_spec (l : List (ℚ × ℚ)) : ∀ a : ℚ × ℚ,
    l.foldl (fun acc b => if b.2 < acc.2 then b else acc) a ∈ a :: l ∧
    (l.foldl (fun acc b => if b.2 < acc.2 then b else acc) a).2 ≤ a.2 ∧
    ∀ q ∈ l, (l.foldl (fun acc b => if b.2 < acc.2 then b else acc) a).2 ≤ q.2 := by
  induction l with
  | nil =>
      intro a
      simp
  | cons b rest ih =>
      intro a
      simp only [List.foldl_cons]
      by_cases h : b.2 < a.2
      · rw [if_pos h]
        obtain ⟨h1, h2, h3⟩ := ih b
        refine ⟨?_, le_trans h2 (le_of_lt h), ?_⟩
        · rcases List.mem_cons.mp h1 with he | he
          · rw [he]
            exact List.Mem.tail _ (List.Mem.head _)
          · exact List.Mem.tail _ (List.Mem.tail _ he)
        · intro q hq
          rcases List.mem_cons.mp hq with he | he
          · exact he ▸ h2
          · exact h3 q he
      · rw [if_neg h]
        obtain ⟨h1, h2, h3⟩ := ih a
        refine ⟨?_, h2, ?_⟩
        · rcases List.mem_cons.mp h1 with he | he
          · rw [he]
            exact List.Mem.head _
          · exact List.Mem.tail _ (List.Mem.tail _ he)
        · intro q hq
          rcases List.mem_cons.mp hq with he | he
          · exact he ▸ le_trans h2 (not_lt.mp h)
          · exact h3 q he

/-- Helper: `min(l, key=lambda t: t[1])` returns an element of `l` whose
second component is least. -/
theorem pyMinBy_spec (l : List (ℚ × ℚ)) (m : ℚ × ℚ) (h : pyMinBy l = some m) :
    m ∈ l ∧ ∀ q ∈ l, m.2 ≤ q.2 := by
  cases l with
  | nil => cases h
  | cons a rest =>
      have hm : rest.foldl (fun acc b => if b.2 < acc.2 then b else acc) a = m :=
        Option.some.inj h
      obtain ⟨h1, h2, h3⟩ := foldlMin_spec rest a
      rw [hm] at h1 h2 h3
      refine ⟨h1, ?_⟩
      intro q hq
      rcases List.mem_cons.mp hq with he | he
      · exact he ▸ h2
      · exact h3 q he

/-- Helper: the running maximum of Python's `max(..., key)` fold. -/
theorem foldlMax_spec (l : List (ℚ × ℚ)) : ∀ a : ℚ × ℚ,
    l.foldl (fun acc b => if acc.2 < b.2 then b else acc) a ∈ a :: l ∧
    a.2 ≤ (l.foldl (fun acc b => if acc.2 < b.2 then b else acc) a).2 ∧
    ∀ q ∈ l, q.2 ≤ (l.foldl (fun acc b => if acc.2 < b.2 then b else acc) a).2 := by
  induction l with
  | nil =>
      intro a
      simp
  | cons b rest ih =>
      intro a
      simp only [List.foldl_cons]
      by_cases h : a.2 < b.2
      · rw [if_pos h]
        obtain ⟨h1, h2, h3⟩ := ih b
        refine ⟨?_, le_trans (le_of_lt h) h2, ?_⟩
        · rcases List.mem_cons.mp h1 with he | he
          · rw [he]
            exact List.Mem.tail _ (List.Mem.head _)
          · exact List.Mem.tail _ (List.Mem.tail _ he)
        · intro q hq
          rcases List.mem_cons.mp hq with he | he
          · exact he ▸ h2
          · exact h3 q he
      · rw [if_neg h]
        obtain ⟨h1, h2, h3⟩ := ih a
        refine ⟨?_, h2, ?_⟩
        · rcases List.mem_cons.mp h1 with he | he
          · rw [he]
            exact List.Mem.head _
          · exact List.Mem.tail _ (List.Mem.tail _ he)
        · intro q hq
          rcases List.mem_cons.mp hq with he | he
          · exact he ▸ le_trans (not_lt.mp h) h2
          · exact h3 q he

/-- Helper: `max(l, key=lambda t: t[1])` returns an element of `l` whose
second component is greatest. -/
theorem pyMaxBy_spec (l : List (ℚ × ℚ)) (m : ℚ × ℚ) (h : pyMaxBy l = some m) :
    m ∈ l ∧ ∀ q ∈ l, q.2 ≤ m.2 := by
  cases l with
  | nil => cases h
  | cons a rest =>
      have hm : rest.foldl (fun acc b => if acc.2 < b.2 then b else acc) a = m :=
        Option.some.inj h
      obtain ⟨h1, h2, h3⟩ := foldlMax_spec rest a
      rw [hm] at h1 h2 h3
      refine ⟨h1, ?_⟩
      intro q hq
      rcases List.mem_cons.mp hq with he | he
      · exact he ▸ h2
      · exact h3 q he

/-- C4: in the 1D extrema step every root with positive second derivative
is a minimum candidate, negative a maximum candidate, and a zero second
derivative — or a failed evaluation of either the second derivative or the
function value — discards the root from both lists; the reported global
minimum is a minimum candidate of
least f-value and the global maximum a maximum candidate of greatest
f-value; an empty candidate list yields the no-extremum message without
error; and x**2 yields global minimum f = 0 at x = 0 and no global maximum. -/
theorem extrema_classification (fv fdd : ℚ → Option ℚ) (roots : List ℚ)
    (pt s v : ℚ) (hpt : pt ∈ roots) (hs : fdd pt = some s) (hv : fv pt = some v) :
    (0 < s → (pt, v) ∈ (extremaStep fv fdd roots).1) ∧
    (s < 0 → (pt, v) ∈ (extremaStep fv fdd roots).2) ∧
    (s = 0 → ∀ w, (pt, w) ∉ (extremaStep fv fdd roots).1 ∧
      (pt, w) ∉ (extremaStep fv fdd roots).2) ∧
    (∀ r w : ℚ, fdd r = none ∨ fv r = none →
      (r, w) ∉ (extremaStep fv fdd roots).1 ∧ (r, w) ∉ (extremaStep fv fdd roots).2) ∧
    (∀ l m, pyMinBy l = some m → m ∈ l ∧ ∀ q ∈ l, m.2 ≤ q.2) ∧
    (∀ l m, pyMaxBy l = some m → m ∈ l ∧ ∀ q ∈ l, q.2 ≤ m.2) ∧
    (minRep [] = UIEvent.noGlobalMin ∧ maxRep [] = UIEvent.noGlobalMax) ∧
    UIEvent.globalMin 0 0 ∈ runProgram modelCAS "x**2" ∧
    UIEvent.noGlobalMax ∈ runProgram modelCAS "x**2" := by
  have hrun : runProgram modelCAS "x**2" = run1D modelCAS exprX2 := by
    with_unfolding_all rfl
  have hc : modelCAS.contDomain "x" exprX2 = some [] := by
    with_unfolding_all rfl
  have hext : extremaEvts modelCAS exprX2 = [UIEvent.globalMin 0 0, UIEvent.noGlobalMax] := by
    with_unfolding_all rfl
  refine ⟨fun hpos => extremaStep_files_min fv fdd roots pt s v hpt hs hv hpos,
    fun hneg => extremaStep_files_max fv fdd roots pt s v hpt hs hv hneg,
    fun h0 w => extremaStep_discards fv fdd roots pt (Or.inl (h0 ▸ hs)) w,
    fun r w hfail => extremaStep_discards fv fdd roots r (Or.inr hfail) w,
    fun l m h => pyMinBy_spec l m h,
    fun l m h => pyMaxBy_spec l m h,
    ⟨rfl, rfl⟩, ?_, ?_⟩
  · rw [hrun]
    simp [run1D, hc, hext]
  · rw [hrun]
    simp [run1D, hc, hext]
/-- Witness for C4 at the root list [0] with second derivative 2 and
value 0, mirroring x**2. -/
theorem extrema_classification_witness :
    ((0:ℚ) < 2 → ((0:ℚ), (0:ℚ)) ∈ (extremaStep (fun _ => some 0) (fun _ => some 2) [0]).1) ∧
    ((2:ℚ) < 0 → ((0:ℚ), (0:ℚ)) ∈ (extremaStep (fun _ => some 0) (fun _ => some 2) [0]).2) ∧
    ((2:ℚ) = 0 → ∀ w, ((0:ℚ), w) ∉ (extremaStep (fun _ => some 0) (fun _ => some 2) [0]).1 ∧
      ((0:ℚ), w) ∉ (extremaStep (fun _ => some 0) (fun _ => some 2) [0]).2) ∧
    (∀ r w : ℚ, (fun _ : ℚ => some (2:ℚ)) r = none ∨ (fun _ : ℚ => some (0:ℚ)) r = none →
      (r, w) ∉ (extremaStep (fun _ => some 0) (fun _ => some 2) [0]).1 ∧
      (r, w) ∉ (extremaStep (fun _ => some 0) (fun _ => some 2) [0]).2) ∧
    (∀ l m, pyMinBy l = some m → m ∈ l ∧ ∀ q ∈ l, m.2 ≤ q.2) ∧
    (∀ l m, pyMaxBy l = some m → m ∈ l ∧ ∀ q ∈ l, q.2 ≤ m.2) ∧
    (minRep [] = UIEvent.noGlobalMin ∧ maxRep [] = UIEvent.noGlobalMax) ∧
    UIEvent.globalMin 0 0 ∈ runProgram modelCAS "x**2" ∧
    UIEvent.noGlobalMax ∈ runProgram modelCAS "x**2" :=
  extrema_classification (fun _ => some 0) (fun _ => some 2) [0] 0 2 0
    (List.mem_singleton_self 0) rfl rfl

/-- C10: a critical point whose second derivative is exactly zero is
filed in neither candidate list and no extremum naming it can appear, so
x**4 — whose only critical point x = 0 is degenerate — is reported with no
global minimum and no global maximum at all. -/
theorem degenerate_point_dropped (fv fdd : ℚ → Option ℚ) (roots : List ℚ) (pt : ℚ)
    (h0 : fdd pt = some 0) :
    (∀ w, (pt, w) ∉ (extremaStep fv fdd roots).1 ∧ (pt, w) ∉ (extremaStep fv fdd roots).2) ∧
    extremaEvts modelCAS exprX4 = [UIEvent.noGlobalMin, UIEvent.noGlobalMax] ∧
    UIEvent.noGlobalMin ∈ runProgram modelCAS "x**4" ∧
    UIEvent.noGlobalMax ∈ runProgram modelCAS "x**4" ∧
    (∀ a b : ℚ, UIEvent.globalMin a b ∉ runProgram modelCAS "x**4") ∧
    (∀ a b : ℚ, UIEvent.globalMax a b ∉ runProgram modelCAS "x**4") := by
  have hrun : runProgram modelCAS "x**4" =
      [UIEvent.header1D, UIEvent.continuityOK, UIEvent.diffOK,
       UIEvent.derivShown (derivExpr exprX4 "x"),
       UIEvent.plot1D (sample1D (evalNum1 exprX4)),
       UIEvent.limitPos LimVal.topL, UIEvent.limitNeg LimVal.topL,
       UIEvent.noGlobalMin, UIEvent.noGlobalMax] := by
    with_unfolding_all rfl
  refine ⟨fun w => extremaStep_discards fv fdd roots pt (Or.inl h0) w,
    by with_unfolding_all rfl, ?_, ?_, ?_, ?_⟩
  · rw [hrun]
    simp
  · rw [hrun]
    simp
  · intro a b
    rw [hrun]
    simp
  · intro a b
    rw [hrun]
    simp
/-- Witness for C10 at a degenerate evaluation over the empty root list. -/
theorem degenerate_point_dropped_witness :
    (∀ w, ((0:ℚ), w) ∉ (extremaStep (fun _ => some 0) (fun _ => some 0) []).1 ∧
      ((0:ℚ), w) ∉ (extremaStep (fun _ => some 0) (fun _ => some 0) []).2) ∧
    extremaEvts modelCAS exprX4 = [UIEvent.noGlobalMin, UIEvent.noGlobalMax] ∧
    UIEvent.noGlobalMin ∈ runProgram modelCAS "x**4" ∧
    UIEvent.noGlobalMax ∈ runProgram modelCAS "x**4" ∧
    (∀ a b : ℚ, UIEvent.globalMin a b ∉ runProgram modelCAS "x**4") ∧
    (∀ a b : ℚ, UIEvent.globalMax a b ∉ runProgram modelCAS "x**4") :=
  degenerate_point_dropped (fun _ => some 0) (fun _ => some 0) [] 0 rfl

/-- C5: a 2D critical point with all four evaluations available is
classified from D = f_xx·f_yy - f_xy² as Local Min (D>0, f_xx>0), Local
Max (D>0, f_xx≤0), Saddle (D<0) or Inconclusive (D=0); an evaluation
failure marks only that point unclassifiable while the per-point map keeps
classifying every other point; and x**2 - y**2 has the single critical
point (0,0) classified Saddle. -/
theorem hessian_classification (cas : CAS) (e fxx fyy fxy : Expr) (pt : ℚ × ℚ)
    (a b d v : ℚ) (ha : cas.evalA2 fxx pt = some a) (hb : cas.evalA2 fxy pt = some b)
    (hd : cas.evalA2 fyy pt = some d) (hv : cas.evalA2 e pt = some v) :
    (0 < a * d - b * b → 0 < a →
      classifyPt cas e fxx fyy fxy pt = UIEvent.critPt pt v CPKind.localMin) ∧
    (0 < a * d - b * b → a ≤ 0 →
      classifyPt cas e fxx fyy fxy pt = UIEvent.critPt pt v CPKind.localMax) ∧
    (a * d - b * b < 0 →
      classifyPt cas e fxx fyy fxy pt = UIEvent.critPt pt v CPKind.saddle) ∧
    (a * d - b * b = 0 →
      classifyPt cas e fxx fyy fxy pt = UIEvent.critPt pt v CPKind.inconclusive) ∧
    (∀ (cas2 : CAS) (e2 f1 f2 f3 : Expr) (p2 : ℚ × ℚ), cas2.evalA2 f1 p2 = none →
      classifyPt cas2 e2 f1 f2 f3 p2 = UIEvent.unclassifiable p2) ∧
    (∀ pts : List (ℚ × ℚ),
      (pts.map (classifyPt cas e fxx fyy fxy)).length = pts.length ∧
      ∀ p ∈ pts, classifyPt cas e fxx fyy fxy p ∈ pts.map (classifyPt cas e fxx fyy fxy)) ∧
    modelCAS.solveSys (derivExpr exprXY "x") (derivExpr exprXY "y") = some [(0, 0)] ∧
    UIEvent.critPt (0, 0) 0 CPKind.saddle ∈ runProgram modelCAS "x**2 - y**2" := by
  have hcl : classifyPt cas e fxx fyy fxy pt =
      (let det := a * d - b * b;
       if det > 0 then
         if a > 0 then UIEvent.critPt pt v CPKind.localMin
         else UIEvent.critPt pt v CPKind.localMax
       else if det < 0 then UIEvent.critPt pt v CPKind.saddle
       else UIEvent.critPt pt v CPKind.inconclusive) := by
    unfold classifyPt
    rw [ha, hb, hd, hv]
  refine ⟨?_, ?_, ?_, ?_, ?_, ?_, by with_unfolding_all rfl, ?_⟩
  · intro hdet hfxx
    rw [hcl]
    dsimp only
    rw [if_pos hdet, if_pos hfxx]
  · intro hdet hfxx
    rw [hcl]
    dsimp only
    rw [if_pos hdet, if_neg (by linarith : ¬a > 0)]
  · intro hdet
    rw [hcl]
    dsimp only
    rw [if_neg (by linarith : ¬a * d - b * b > 0), if_pos hdet]
  · intro hdet
    rw [hcl]
    dsimp only
    rw [if_neg (by simp [hdet] : ¬a * d - b * b > 0),
      if_neg (by simp [hdet] : ¬a * d - b * b < 0)]
  · intro cas2 e2 f1 f2 f3 p2 hfail
    unfold classifyPt
    rw [hfail]
  · intro pts
    refine ⟨List.length_map _ _, ?_⟩
    intro p hp
    exact List.mem_map_of_mem _ hp
  · have hrun : runProgram modelCAS "x**2 - y**2" = run2D modelCAS exprXY := by
      with_unfolding_all rfl
    have hcrit : critEvts modelCAS exprXY = [UIEvent.critPt (0, 0) 0 CPKind.saddle] := by
      with_unfolding_all rfl
    rw [hrun]
    simp [run2D, hcrit]
/-- Witness for C5 at the Hessian of x**2 - y**2 at (0,0):
a = 2, b = 0, d = -2, v = 0. -/
theorem hessian_classification_witness :
    (0 < (2:ℚ) * (-2) - 0 * 0 → 0 < (2:ℚ) →
      classifyPt modelCAS exprXY (derivExpr (derivExpr exprXY "x") "x")
          (derivExpr (derivExpr exprXY "y") "y") (derivExpr (derivExpr exprXY "x") "y") (0, 0) =
        UIEvent.critPt (0, 0) 0 CPKind.localMin) ∧
    (0 < (2:ℚ) * (-2) - 0 * 0 → (2:ℚ) ≤ 0 →
      classifyPt modelCAS exprXY (derivExpr (derivExpr exprXY "x") "x")
          (derivExpr (derivExpr exprXY "y") "y") (derivExpr (derivExpr exprXY "x") "y") (0, 0) =
        UIEvent.critPt (0, 0) 0 CPKind.localMax) ∧
    ((2:ℚ) * (-2) - 0 * 0 < 0 →
      classifyPt modelCAS exprXY (derivExpr (derivExpr exprXY "x") "x")
          (derivExpr (derivExpr exprXY "y") "y") (derivExpr (derivExpr exprXY "x") "y") (0, 0) =
        UIEvent.critPt (0, 0) 0 CPKind.saddle) ∧
    ((2:ℚ) * (-2) - 0 * 0 = 0 →
      classifyPt modelCAS exprXY (derivExpr (derivExpr exprXY "x") "x")
          (derivExpr (derivExpr exprXY "y") "y") (derivExpr (derivExpr exprXY "x") "y") (0, 0) =
        UIEvent.critPt (0, 0) 0 CPKind.inconclusive) ∧
    (∀ (cas2 : CAS) (e2 f1 f2 f3 : Expr) (p2 : ℚ × ℚ), cas2.evalA2 f1 p2 = none →
      classifyPt cas2 e2 f1 f2 f3 p2 = UIEvent.unclassifiable p2) ∧
    (∀ pts : List (ℚ × ℚ),
      (pts.map (classifyPt modelCAS exprXY (derivExpr (derivExpr exprXY "x") "x")
          (derivExpr (derivExpr exprXY "y") "y") (derivExpr (derivExpr exprXY "x") "y"))).length =
        pts.length ∧
      ∀ p ∈ pts, classifyPt modelCAS exprXY (derivExpr (derivExpr exprXY "x") "x")
          (derivExpr (derivExpr exprXY "y") "y") (derivExpr (derivExpr exprXY "x") "y") p ∈
        pts.map (classifyPt modelCAS exprXY (derivExpr (derivExpr exprXY "x") "x")
          (derivExpr (derivExpr exprXY "y") "y") (derivExpr (derivExpr exprXY "x") "y"))) ∧
    modelCAS.solveSys (derivExpr exprXY "x") (derivExpr exprXY "y") = some [(0, 0)] ∧
    UIEvent.critPt (0, 0) 0 CPKind.saddle ∈ runProgram modelCAS "x**2 - y**2" :=
  hessian_classification modelCAS exprXY (derivExpr (derivExpr exprXY "x") "x")
    (derivExpr (derivExpr exprXY "y") "y") (derivExpr (derivExpr exprXY "x") "y") (0, 0)
    2 0 (-2) 0 (by with_unfolding_all rfl) (by with_unfolding_all rfl)
    (by with_unfolding_all rfl) (by with_unfolding_all rfl)
/-- Counterexample to C1: in the 2D branch the grid value of y/(x+10) at
the grid point (x, y) = (-10, 10) (row 99, column 0 of Z) evaluates to
+inf, is not finite, and is recorded in the plotted surface exactly as
+inf — not as the nan gap marker the claim requires — because line 156
applies no finiteness filter. -/
theorem grid_gap_marker_cex :
    parseExpr "y/(x+10)" = .ok exprYX10 ∧
    evalNum2 exprYX10 (-10) 10 = NumVal.pinf ∧
    isfinite NumVal.pinf = false ∧
    ((sample2D (evalNum2 exprYX10))[99]!)[0]! = NumVal.pinf ∧
    NumVal.pinf ≠ NumVal.nan ∧
    UIEvent.plot2D (sample2D (evalNum2 exprYX10)) ∈ runProgram modelCAS "y/(x+10)" := by
  refine ⟨rfl, by with_unfolding_all rfl, rfl, ?_, by decide, ?_⟩
  · with_unfolding_all rfl
  · have hrun : runProgram modelCAS "y/(x+10)" = run2D modelCAS exprYX10 := by
      with_unfolding_all rfl
    rw [hrun]
    simp [run2D]

/-- C1 as amended: in the 1D branch every recorded sample is finite or
the explicit nan gap marker, and a non-finite evaluation at grid index i is
recorded as nan at that index; in the 2D branch the recorded grid values
are exactly the raw evaluations — no gap conversion is applied — so
non-finite evaluations are recorded as themselves. -/
theorem sampling_gap_policy (f : ℚ → NumVal) (g : ℚ → ℚ → NumVal) :
    (∀ w ∈ sample1D f, isfinite w = true ∨ w = NumVal.nan) ∧
    (∀ (i : Nat) (v : ℚ), (linspaceQ (-10) 10 400)[i]? = some v → isfinite (f v) = false →
      (sample1D f)[i]? = some NumVal.nan) ∧
    (∀ row ∈ sample2D g, ∀ w ∈ row, ∃ a b, a ∈ gridQ ∧ b ∈ gridQ ∧ w = g a b) ∧
    (∀ a ∈ gridQ, ∀ b ∈ gridQ, ∃ row, row ∈ sample2D g ∧ g a b ∈ row) := by
  refine ⟨?_, ?_, ?_, ?_⟩
  · intro w hw
    rcases List.mem_map.mp hw with ⟨v, hv, he⟩
    by_cases hfin : isfinite (f v) = true
    · left
      rw [← he, if_pos hfin]
      exact hfin
    · right
      rw [← he, if_neg hfin]
  · intro i v hi hf
    unfold sample1D
    rw [List.getElem?_map, hi]
    simp [hf]
  · intro row hrow w hw
    rcases List.mem_map.mp hrow with ⟨yv, hyv, hrow2⟩
    rw [← hrow2] at hw
    rcases List.mem_map.mp hw with ⟨xv, hxv, hw2⟩
    exact ⟨xv, yv, hxv, hyv, hw2.symm⟩
  · intro a ha b hb
    refine ⟨gridQ.map (fun xv => g xv b), List.mem_map_of_mem _ hb, ?_⟩
    exact List.mem_map_of_mem _ ha

end FA
